import Mathlib

set_option autoImplicit false

/-!
Verification of the paragraph batching and reconciliation engine of
`book_maker/translator/chatgptapi_translator.py`.

Python strings are embedded as `List Char`; lists of paragraphs produced by the
response splitter are `List (List Char)`.  The network backend is abstracted as
an oracle: a function from the call index (the number of backend calls made so
far in the enclosing operation) to the value the call produces.  Stateful code
(retry counters, best-so-far candidates, append-only log sinks) is embedded by
explicit state passing; log sinks become returned records.
-/

/-- Python `str.strip` whitespace class: space, tab, newline, carriage return,
vertical tab, form feed. -/
def pyIsSpace (c : Char) : Bool :=
  c = ' ' || c = '\t' || c = '\n' || c = '\r' || c = '\x0b' || c = '\x0c'

/-- Python `str.strip()`: drop leading and trailing whitespace. -/
def pyStrip (l : List Char) : List Char :=
  ((l.dropWhile pyIsSpace).reverse.dropWhile pyIsSpace).reverse

/-- Pure core of `translate_and_split_lines` (line 157-161): the raw backend
response is split on newlines, each line stripped, and lines that are empty
after stripping dropped (`[line.strip() for line in lines if line.strip() != ""]`).
The backend call itself is abstracted into the `result_str` argument. -/
def translate_and_split_lines (result_str : List Char) : List (List Char) :=
  (result_str.splitOn '\n').filterMap
    (fun line => if pyStrip line = [] then none else some (pyStrip line))

/-- Python `" ".join(temp_line)`. -/
def spaceJoin (temp_line : List (List Char)) : List Char :=
  List.intercalate [' '] temp_line

/-- The accumulation loop of `join_lines` (lines 243-254): consecutive lines
that are nonblank after stripping are gathered into `temp_line` and flushed as
one space-joined line at each blank line (which is kept as-is) and at the end
of input. -/
def collapseLoop : List (List Char) → List (List Char) → List (List Char)
  | [], temp_line => if temp_line = [] then [] else [spaceJoin temp_line]
  | line :: rest, temp_line =>
      if pyStrip line = [] then
        (if temp_line = [] then [] else [spaceJoin temp_line])
          ++ line :: collapseLoop rest []
      else
        collapseLoop rest (temp_line ++ [pyStrip line])

/-- Python `text.replace("^M", "\r")` (line 259): left-to-right replacement of
each non-overlapping two-character sequence caret-M by a carriage return. -/
def replaceCaretM : List Char → List Char
  | [] => []
  | '^' :: 'M' :: rest => '\r' :: replaceCaretM rest
  | c :: rest => c :: replaceCaretM rest

/-- Embedding of `join_lines` (lines 238-264): split on newlines, collapse
soft-wrapped runs, re-join, replace caret-M by carriage returns, then drop
every line whose stripped form equals the one-character string CR, and re-join
once more. -/
def join_lines (text : List Char) : List Char :=
  let lines := text.splitOn '\n'
  let new_lines := collapseLoop lines []
  let text1 := List.intercalate ['\n'] new_lines
  let text2 := replaceCaretM text1
  let filtered_lines := (text2.splitOn '\n').filter (fun line => pyStrip line ≠ ['\r'])
  List.intercalate ['\n'] filtered_lines

/-- Simplified `join_lines` named by claim C10: the collapse pass followed by
the caret-M replacement, with no line-removal pass. -/
def join_lines_simple (text : List Char) : List Char :=
  replaceCaretM (List.intercalate ['\n'] (collapseLoop (text.splitOn '\n') []))

/-- Leading-enumeration matcher of the PrefixNormalizer regex
`^(\(\d+\)|\d+\.|(\d+))` (line 308): ordered alternation between a
parenthesized number, a number followed by a period, and a bare number, each
with the greedy maximal digit run.  Returns the remainder after the match,
or `none` when the string does not start with an enumeration artifact. -/
def enumMatch : List Char → Option (List Char)
  | [] => none
  | c :: rest =>
      if c = '(' then
        if rest.takeWhile Char.isDigit = [] then none
        else
          match rest.dropWhile Char.isDigit with
          | ')' :: tail => some tail
          | _ => none
      else
        if (c :: rest).takeWhile Char.isDigit = [] then none
        else
          match (c :: rest).dropWhile Char.isDigit with
          | '.' :: tail => some tail
          | rest2 => some rest2

/-- PrefixNormalizer (line 308): Python
`re.sub(r"^(\(\d+\)|\d+\.|(\d+))\s*", "", s)`.  The pattern is anchored, so at
most one leading match (plus the following whitespace run) is removed. -/
def stripEnum (s : List Char) : List Char :=
  match enumMatch s with
  | some rest => rest.dropWhile pyIsSpace
  | none => s

/-- Tie-break update of `get_best_result_list` (lines 187-195): the new
candidate replaces the best so far when its length is exact, approaches the
expected count from below, or shrinks a prior overshoot. -/
def updateBest (plist_len : Nat) (best_result_list result_list : List (List Char)) :
    List (List Char) :=
  if result_list.length = plist_len
      ∨ (best_result_list.length < result_list.length ∧ result_list.length ≤ plist_len)
      ∨ (result_list.length < best_result_list.length ∧ plist_len < best_result_list.length)
  then result_list
  else best_result_list

/-- Retry loop of `get_best_result_list` (lines 179-196).  `cands k` is the
candidate returned by the k-th in-loop call of `translate_and_split_lines`
(0-based); `fuel = max_retries - retry_count` counts the remaining loop
iterations, so the `while retry_count < max_retries` guard is the `fuel = 0`
base case. -/
def get_best_result_loop (plist_len : Nat) (cands : Nat → List (List Char)) :
    Nat → Nat → List (List Char) → List (List Char) → List (List Char) × Nat
  | 0, retry_count, _, best_result_list => (best_result_list, retry_count)
  | fuel + 1, retry_count, result_list, best_result_list =>
      if result_list.length = plist_len then (best_result_list, retry_count)
      else
        get_best_result_loop plist_len cands fuel (retry_count + 1) (cands retry_count)
          (updateBest plist_len best_result_list (cands retry_count))

/-- Embedding of `get_best_result_list` (lines 165-197).  The sleeping and the
re-sent request string do not affect the result and are dropped; the successive
values of `translate_and_split_lines` are supplied by the oracle `cands`.  The
source default for `max_retries` is 15. -/
def get_best_result_list (plist_len : Nat) (cands : Nat → List (List Char))
    (result_list : List (List Char)) (max_retries : Nat) : List (List Char) × Nat :=
  if result_list.length = plist_len then (result_list, 0)
  else get_best_result_loop plist_len cands max_retries 0 result_list result_list

/-- Concrete candidate list of a given length, for scenario checks. -/
def sampleList (n : Nat) : List (List Char) := List.replicate n ['a']

/-- Candidate oracle of the §8 scenario with candidate lengths 6, 8. -/
def scenCands : Nat → List (List Char) :=
  fun k => if k = 0 then sampleList 6 else sampleList 8

/-- Sub-element of a paragraph markup node, as seen by the source through
`find_all("sup")` / `get_text()`: a tag name and the text it contributes. -/
structure TagNode where
  tag : List Char
  text : List Char

/-- A source paragraph: markup nodes whose concatenated text is `get_text()`. -/
structure Paragraph where
  nodes : List TagNode

/-- BeautifulSoup `get_text()`: concatenation of all node text. -/
def Paragraph.get_text (p : Paragraph) : List Char :=
  (p.nodes.map TagNode.text).flatten

/-- Lines 273-275: `sup.extract()` on a copy removes every `sup` node. -/
def Paragraph.extractSups (p : Paragraph) : Paragraph :=
  ⟨p.nodes.filter (fun n => n.tag ≠ "sup".toList)⟩

/-- The separator token `"\n\n\n\n\n"` (line 267). -/
def sepChars : List Char := ['\n', '\n', '\n', '\n', '\n']

/-- Decimal rendering of a number, as Python string formatting produces it. -/
def natChars (n : Nat) : List Char := (Nat.repr n).toList

/-- Text of one paragraph as packed: sups removed, `get_text()`, stripped. -/
def paraText (p : Paragraph) : List Char :=
  pyStrip (Paragraph.get_text (Paragraph.extractSups p))

/-- One packed piece `f"({i}) {text}"` (line 276) without its separator. -/
def packPiece (i : Nat) (p : Paragraph) : List Char :=
  ('(' :: natChars i) ++ (')' :: ' ' :: paraText p)

/-- The packing loop of `translate_list` (lines 270-277): accumulate
`f"({i}) {text}{sep}"` for each paragraph, with a 1-based counter. -/
def packLoop : List Paragraph → Nat → List Char → List Char
  | [], _, new_str => new_str
  | p :: ps, i, new_str => packLoop ps (i + 1) (new_str ++ (packPiece i p ++ sepChars))

/-- Lines 270-280 of `translate_list`: run the packing loop from counter 1 and
strip a trailing separator when present (`if new_str.endswith(sep)`). -/
def packParagraphs (plist : List Paragraph) : List Char :=
  let s := packLoop plist 1 []
  if sepChars <:+ s then s.take (s.length - sepChars.length) else s

/-- Batcher contract as claim C8 words it: the enumerated pieces joined by the
separator with no trailing separator. -/
def batcherSpec (plist : List Paragraph) : List Char :=
  List.intercalate sepChars ((List.enumFrom 1 plist).map (fun ip => packPiece ip.1 ip.2))

/-- Boolean form of the nonblank-line test used by the collapse phase. -/
def nonblank (l : List Char) : Bool := decide (pyStrip l ≠ [])

/-- Collapse phase of `join_lines` as claim C8 words it: each maximal run of
nonblank lines becomes one line of the stripped run joined by single spaces;
blank lines are kept as boundaries. -/
def collapseSpec : List (List Char) → List (List Char)
  | [] => []
  | line :: rest =>
      if pyStrip line = [] then line :: collapseSpec rest
      else
        spaceJoin ((line :: rest.takeWhile nonblank).map pyStrip)
          :: collapseSpec (rest.dropWhile nonblank)
termination_by ls => ls.length
decreasing_by
  · simp
  · have h : (rest.dropWhile nonblank).length ≤ rest.length :=
      List.Sublist.length_le (List.dropWhile_sublist _)
    simp only [List.length_cons]
    omega

/-- Embedding of `log_retry` (lines 201-209): the durable record appended to
the retry log, or `none` when `retry_count == 0` and the method returns without
writing. -/
def log_retry (state : List Char) (retry_count : Nat) : Option (List Char × Nat) :=
  if retry_count = 0 then none else some (state, retry_count)

/-- Embedding of `log_translation_mismatch` (lines 211-236): the mismatch
record (expected count, actual count) appended to the diagnostic log, or
`none` when the counts agree and the method returns without writing. -/
def log_translation_mismatch (plist_len : Nat) (result_list : List (List Char)) :
    Option (Nat × Nat) :=
  if result_list.length = plist_len then none else some (plist_len, result_list.length)

/-- The two log sinks written by `translate_list`. -/
structure TransLog where
  retry_log : Option (List Char × Nat)
  mismatch : Option (Nat × Nat)

/-- Embedding of `translate_list` (lines 266-309).  `responses k` is the raw
backend response of the k-th call of `translate_and_split_lines` made on
behalf of this invocation (call 0 before the reconciliation loop, calls 1..
inside it); the packed request string is built exactly as the source does but,
the backend being an oracle, does not influence the response.  Sleep duration 6
and the default retry budget 15 are as at the call site. -/
def translate_list (plist : List Paragraph) (responses : Nat → List Char) :
    List (List Char) × TransLog :=
  let new_str := join_lines (packParagraphs plist)
  let plist_len := plist.length
  let result0 := translate_and_split_lines (responses 0)
  let res := get_best_result_list plist_len
    (fun k => translate_and_split_lines (responses (k + 1))) result0 15
  let state := if res.1.length ≠ plist_len then "fail".toList else "success".toList
  let log : TransLog := ⟨log_retry state res.2, log_translation_mismatch plist_len res.1⟩
  (res.1.map stripEnum, log)

/-- A concrete one-paragraph list for witnesses. -/
def samplePlist : List Paragraph := [⟨[⟨"p".toList, "hi".toList⟩]⟩]

/-- A constant backend oracle answering two lines. -/
def constResp : Nat → List Char := fun _ => "a\nb".toList

/-- One choice of a backend completion: its finish reason and the content of
its message. -/
structure Choice where
  finish_reason : List Char
  message_content : List Char

/-- A backend completion object.  `choices = none` models a response whose
`"choices"` field is missing or is not a list; `some []` an empty choices
list. -/
structure Completion where
  choices : Option (List Choice)

/-- The Python exceptions distinguished by `get_translation`: the re-raised
exception of the API call itself (lines 95-103, where `completion` is still
the empty dict, so the `except` clause always re-raises), the key error of
`completion["choices"]` on a malformed response, and the index error of
`choices[0]` on an empty choices list (line 105). -/
inductive PyErr where
  | apiError
  | keyError
  | indexError
deriving DecidableEq

/-- Embedding of `get_translation` (lines 90-120).  The backend call is the
`resp` argument (`.error` = the call raised).  On success the method returns
the first choice's content, and when the finish reason is `"length"` it first
appends the offending input `text` to the oversize-text log
(`log/long_text.txt`), modelled as the second component of the result. -/
def get_translation (text : List Char) (resp : Except Unit Completion) :
    Except PyErr (List Char × Option (List Char)) :=
  match resp with
  | .error _ => .error .apiError
  | .ok completion =>
      match completion.choices with
      | none => .error .keyError
      | some [] => .error .indexError
      | some (choice :: _) =>
          let t_text := choice.message_content
          if choice.finish_reason = "length".toList then .ok (t_text, some text)
          else .ok (t_text, none)

/-- Retry loop of the source method `translate` (lines 129-146): up to `max_attempts = 3` calls
of `get_translation`; a success breaks out, an exception sleeps and retries,
and the exception of the final attempt is re-raised.  `get k` is the k-th call
(0-based), `fuel = max_attempts - attempt_count`; on success the returned
counter is the number of failed attempts that preceded it. -/
def translateLoop (get : Nat → Except PyErr (List Char × Option (List Char))) :
    Nat → Nat → Except PyErr ((List Char × Option (List Char)) × Nat)
  | 0, attempt_count => .ok ((([] : List Char), none), attempt_count)
  | fuel + 1, attempt_count =>
      match get attempt_count with
      | .ok t => .ok (t, attempt_count)
      | .error e =>
          if fuel = 0 then .error e
          else translateLoop get fuel (attempt_count + 1)

/-- Embedding of the source method `translate` (lines 124-153), renamed to
avoid a library name: the attempt loop run with
`max_attempts = 3`, each attempt calling `get_translation` on the next oracle
response. -/
def translateText (text : List Char) (oracle : Nat → Except Unit Completion) :
    Except PyErr ((List Char × Option (List Char)) × Nat) :=
  translateLoop (fun k => get_translation text (oracle k)) 3 0

/-- Oracle whose first response is truncated with content `"x"`. -/
def truncOracle : Nat → Except Unit Completion :=
  fun _ => .ok ⟨some [⟨"length".toList, "x".toList⟩]⟩

/-- Oracle whose first response is malformed and whose later responses are
well-formed. -/
def cexOracle : Nat → Except Unit Completion :=
  fun k => if k = 0 then .ok ⟨none⟩ else .ok ⟨some [⟨"stop".toList, "hello".toList⟩]⟩

/-- Oracle every response of which is malformed. -/
def badOracle : Nat → Except Unit Completion := fun _ => .ok ⟨none⟩

-- Helper lemmas

/-- The tie-break update always returns one of its two candidate arguments. -/
theorem updateBest_cases (plist_len : Nat) (b c : List (List Char)) :
    updateBest plist_len b c = c ∨ updateBest plist_len b c = b := by
  unfold updateBest
  split
  · exact Or.inl rfl
  · exact Or.inr rfl

/-- On an oracle whose candidates never have the expected length, the retry
loop consumes all its fuel and returns either the incoming best candidate or
one of the oracle candidates. -/
theorem get_best_result_loop_exhaust (plist_len : Nat) (cands : Nat → List (List Char))
    (h : ∀ k, (cands k).length ≠ plist_len) :
    ∀ fuel retry_count result best, result.length ≠ plist_len →
      (get_best_result_loop plist_len cands fuel retry_count result best).2
          = retry_count + fuel ∧
        ((get_best_result_loop plist_len cands fuel retry_count result best).1 = best ∨
          ∃ k, (get_best_result_loop plist_len cands fuel retry_count result best).1
            = cands k) := by
  intro fuel
  induction fuel with
  | zero =>
      intro rc result best hr
      simp [get_best_result_loop]
  | succ n ih =>
      intro rc result best hr
      simp only [get_best_result_loop, if_neg hr]
      obtain ⟨h1, h2⟩ := ih (rc + 1) (cands rc) (updateBest plist_len best (cands rc)) (h rc)
      refine ⟨by rw [h1]; omega, ?_⟩
      rcases h2 with h2 | ⟨k, hk⟩
      · rcases updateBest_cases plist_len best (cands rc) with hu | hu
        · exact Or.inr ⟨rc, by rw [h2, hu]⟩
        · exact Or.inl (by rw [h2, hu])
      · exact Or.inr ⟨k, hk⟩

-- Claim theorems

/-- C1: the tie-break rule of the reconciliation engine replaces `best` with a
new candidate `Cn` exactly when `len(Cn) == expected`, or
`len(best) < len(Cn) <= expected`, or `len(Cn) < len(best)` while
`len(best) > expected`; in every other case `best` is unchanged.  Moreover, for
expected = 5 and successive candidate lengths [7, 6, 8] with a retry budget of
2, the reconciliation ends with a best candidate of length 6 after 2 retries. -/
theorem tie_break_rule (plist_len : Nat) (best c : List (List Char)) :
    ((c.length = plist_len
        ∨ (best.length < c.length ∧ c.length ≤ plist_len)
        ∨ (c.length < best.length ∧ plist_len < best.length)) →
      updateBest plist_len best c = c) ∧
    (¬(c.length = plist_len
        ∨ (best.length < c.length ∧ c.length ≤ plist_len)
        ∨ (c.length < best.length ∧ plist_len < best.length)) →
      updateBest plist_len best c = best) ∧
    ((get_best_result_list 5 scenCands (sampleList 7) 2).1.length = 6 ∧
      (get_best_result_list 5 scenCands (sampleList 7) 2).2 = 2) := by
  refine ⟨fun h => ?_, fun h => ?_, by decide⟩
  · unfold updateBest
    exact if_pos h
  · unfold updateBest
    exact if_neg h

/-- Witness for C1: the overshoot-shrinking branch fires on candidates of
lengths 7 (best) and 6 (new) with expected count 5. -/
theorem tie_break_rule_witness :
    updateBest 5 (sampleList 7) (sampleList 6) = sampleList 6 :=
  (tie_break_rule 5 (sampleList 7) (sampleList 6)).1 (by decide)

/-- C3 (amended): one update step of the tie-break rule never moves
`len(best)` strictly farther from the expected count, except in the one case
where an overshooting best (`len(best) > expected`) is replaced by an
undershooting candidate (`len(Cn) < expected`); and once `len(best)` is exact
it stays exact. -/
theorem tie_break_distance (plist_len : Nat) (best c : List (List Char)) :
    (best.length = plist_len → (updateBest plist_len best c).length = plist_len) ∧
    (Nat.dist (updateBest plist_len best c).length plist_len
        ≤ Nat.dist best.length plist_len
      ∨ (plist_len < best.length ∧ c.length < plist_len)) := by
  by_cases hcond : (c.length = plist_len
      ∨ (best.length < c.length ∧ c.length ≤ plist_len)
      ∨ (c.length < best.length ∧ plist_len < best.length))
  · simp only [updateBest, if_pos hcond]
    constructor
    · intro hb
      rcases hcond with h | h | h <;> omega
    · by_cases hc : c.length < plist_len
      · rcases hcond with h | h | h
        · omega
        · left
          simp only [Nat.dist]
          omega
        · exact Or.inr ⟨h.2, hc⟩
      · left
        rcases hcond with h | h | h <;> (simp only [Nat.dist]; omega)
  · simp only [updateBest, if_neg hcond]
    exact ⟨fun hb => hb, Or.inl (Nat.le_refl _)⟩

/-- Witness for C3 (amended): an exact best of length 5 stays exact against a
candidate of length 3. -/
theorem tie_break_distance_witness :
    (updateBest 5 (sampleList 5) (sampleList 3)).length = 5 :=
  (tie_break_distance 5 (sampleList 5) (sampleList 3)).1 (by decide)

/-- Counterexample for C3 as stated: with expected count 5, a best candidate of
length 6 (distance 1) and a retry producing a candidate of length 0, the rule
replaces the overshoot by the empty undershoot and the distance grows from 1
to 5 -- strictly farther than after the previous candidate. -/
theorem tie_break_distance_cex :
    Nat.dist (get_best_result_list 5 (fun _ => ([] : List (List Char)))
        (sampleList 6) 1).1.length 5 >
      Nat.dist (get_best_result_list 5 (fun _ => ([] : List (List Char)))
        (sampleList 6) 0).1.length 5 := by
  decide

/-- C4 (amended): whenever the initial candidate already has the expected
length, `get_best_result_list` returns it unchanged with zero retries.  (The
`expected == 0` edge case terminates immediately only when the initial
candidate is itself empty.) -/
theorem initial_exact_zero_retries (plist_len : Nat) (cands : Nat → List (List Char))
    (c0 : List (List Char)) (max_retries : Nat) (h : c0.length = plist_len) :
    get_best_result_list plist_len cands c0 max_retries = (c0, 0) := by
  simp [get_best_result_list, h]

/-- Witness for C4 (amended): a two-element initial candidate with expected
count 2 is returned immediately. -/
theorem initial_exact_zero_retries_witness :
    get_best_result_list 2 (fun _ => []) (sampleList 2) 15 = (sampleList 2, 0) :=
  initial_exact_zero_retries 2 (fun _ => []) (sampleList 2) 15 (by decide)

/-- Counterexample for C4 as stated: with expected count 0 and a nonempty
initial candidate, the loop is entered and retries are consumed (15 of them
when every retry also returns a nonempty candidate), so the result is not
`(C0, 0)`. -/
theorem expected_zero_cex :
    get_best_result_list 0 (fun _ => [['a']]) [['a']] 15 ≠ ([['a']], 0) := by
  decide

-- String-layer helper lemmas

/-- The first element surviving `dropWhile` fails the predicate. -/
theorem dropWhile_head_false {α : Type} (p : α → Bool) (l : List α) (c : α) (t : List α)
    (h : l.dropWhile p = c :: t) : p c = false := by
  induction l with
  | nil => simp [List.dropWhile] at h
  | cons a s ih =>
      rw [List.dropWhile_cons] at h
      by_cases hp : p a
      · rw [if_pos hp] at h
        exact ih h
      · rw [if_neg hp] at h
        cases h
        simpa using hp

/-- A stripped line is never the one-character carriage-return string, because
the carriage return is itself stripped whitespace. -/
theorem pyStrip_ne_cr (l : List Char) : pyStrip l ≠ ['\r'] := by
  intro h
  unfold pyStrip at h
  have h2 : (l.dropWhile pyIsSpace).reverse.dropWhile pyIsSpace = ['\r'] := by
    have h3 := congrArg List.reverse h
    simpa using h3
  have h4 := dropWhile_head_false pyIsSpace (l.dropWhile pyIsSpace).reverse '\r' [] h2
  simp [pyIsSpace] at h4

/-- A string whose head is neither a digit nor an opening parenthesis does not
start with an enumeration artifact. -/
theorem enumMatch_none (c : Char) (t : List Char) (hd : c.isDigit = false)
    (hp : c ≠ '(') : enumMatch (c :: t) = none := by
  rw [enumMatch]
  rw [if_neg hp]
  rw [List.takeWhile_cons, hd]
  simp

/-- Strings with no leading enumeration artifact are fixed by the normalizer. -/
theorem stripEnum_of_none (s : List Char) (h : enumMatch s = none) : stripEnum s = s := by
  unfold stripEnum
  rw [h]

-- Claim theorems (string layer)

/-- C9: `translate_and_split_lines` splits the response on newline boundaries,
trims each line, and discards lines that are empty after trimming; the result
is exactly the trimmed lines filtered for non-emptiness, and it is a sublist of
the full trimmed-line sequence (original order, no deduplication). -/
theorem response_splitter_contract (s : List Char) :
    translate_and_split_lines s
        = ((s.splitOn '\n').map pyStrip).filter (fun l => l ≠ []) ∧
      List.Sublist (translate_and_split_lines s) ((s.splitOn '\n').map pyStrip) := by
  have key : ∀ ls : List (List Char),
      ls.filterMap (fun line => if pyStrip line = [] then none else some (pyStrip line))
        = (ls.map pyStrip).filter (fun l => l ≠ []) := by
    intro ls
    induction ls with
    | nil => rfl
    | cons a t ih =>
        by_cases h : pyStrip a = []
        · simp [List.filterMap_cons, List.filter_cons, h, ih]
        · simp [List.filterMap_cons, List.filter_cons, h, ih]
  constructor
  · exact key _
  · rw [translate_and_split_lines, key _]
    exact List.filter_sublist _

/-- Shared helper: the final filter pass of `join_lines` keeps every line, so
the function equals its collapse-then-replace core. -/
theorem join_lines_eq_simple (text : List Char) :
    join_lines text = join_lines_simple text := by
  have hall : ∀ a ∈ (replaceCaretM
        (['\n'].intercalate (collapseLoop (text.splitOn '\n') []))).splitOn '\n',
      decide (pyStrip a ≠ ['\r']) = true := by
    intro a ha
    simpa using pyStrip_ne_cr a
  simp only [join_lines, join_lines_simple]
  rw [List.filter_eq_self.mpr hall]
  exact List.intercalate_splitOn _ '\n'

/-- C10: the carriage-return filtering stage of `join_lines` is a no-op -- no
line can strip to the one-character CR string -- so `join_lines` coincides with
the simpler collapse-then-replace function with no line-removal pass. -/
theorem join_lines_filter_noop (text : List Char) :
    (∀ l : List Char, pyStrip l ≠ ['\r']) ∧ join_lines text = join_lines_simple text :=
  ⟨pyStrip_ne_cr, join_lines_eq_simple text⟩

/-- C5 (amended): the PrefixNormalizer removes at most one leading enumeration
artifact per application, so applying it twice equals applying it once on every
string whose once-normalized form does not itself begin with a digit or an
opening parenthesis; in general a second application can strip a further
artifact. -/
theorem strip_enum_once_clean (s : List Char)
    (h : ∀ c, (stripEnum s).head? = some c → c.isDigit = false ∧ c ≠ '(') :
    stripEnum (stripEnum s) = stripEnum s := by
  apply stripEnum_of_none
  cases hs : stripEnum s with
  | nil => rfl
  | cons c t =>
      obtain ⟨h1, h2⟩ := h c (by rw [hs]; rfl)
      exact enumMatch_none c t h1 h2

/-- Witness for C5 (amended): one application fully normalizes a line whose
stripped form starts with a letter. -/
theorem strip_enum_once_clean_witness :
    stripEnum (stripEnum ("(12) hello".toList)) = stripEnum ("(12) hello".toList) :=
  strip_enum_once_clean ("(12) hello".toList) (by
    intro c hc
    have h2 : (stripEnum ("(12) hello".toList)).head? = some 'h' := by decide
    rw [h2] at hc
    have h3 : c = 'h' := (Option.some.inj hc).symm
    rw [h3]
    decide)

/-- Counterexample for C5 as stated: stripping `"(1) 2. x"` once yields
`"2. x"`, and a second application strips the surviving `"2. "` artifact, so
the normalizer is not idempotent. -/
theorem strip_enum_not_idempotent :
    stripEnum (stripEnum ("(1) 2. x".toList)) ≠ stripEnum ("(1) 2. x".toList) := by
  decide

-- Batcher and collapse helper lemmas

/-- One-step run decomposition of the collapse: the spec function peels off the
leading maximal nonblank run (flushed as one space-joined line when nonempty)
and recurses past it. -/
theorem collapseSpec_run (ls : List (List Char)) :
    collapseSpec ls
      = (if ls.takeWhile nonblank = [] then []
          else [spaceJoin ((ls.takeWhile nonblank).map pyStrip)])
        ++ collapseSpec (ls.dropWhile nonblank) := by
  cases ls with
  | nil => simp [collapseSpec]
  | cons line rest =>
      by_cases hb : pyStrip line = []
      · have hn : nonblank line = false := by simp [nonblank, hb]
        simp [List.takeWhile_cons, List.dropWhile_cons, hn]
      · have hn : nonblank line = true := by simp [nonblank, hb]
        rw [collapseSpec]
        rw [if_neg hb]
        simp [List.takeWhile_cons, List.dropWhile_cons, hn]

/-- The imperative accumulation loop of `join_lines` computes the run-based
collapse: the pending `temp_line` is prepended to the leading nonblank run. -/
theorem collapseLoop_eq (ls : List (List Char)) :
    ∀ temp_line, collapseLoop ls temp_line
      = (if temp_line = [] ∧ ls.takeWhile nonblank = [] then []
          else [spaceJoin (temp_line ++ (ls.takeWhile nonblank).map pyStrip)])
        ++ collapseSpec (ls.dropWhile nonblank) := by
  induction ls with
  | nil =>
      intro temp
      by_cases ht : temp = [] <;> simp [collapseLoop, collapseSpec, ht]
  | cons line rest ih =>
      intro temp
      by_cases hb : pyStrip line = []
      · have hn : nonblank line = false := by simp [nonblank, hb]
        have hrest : collapseLoop rest [] = collapseSpec rest := by
          rw [ih []]
          conv_rhs => rw [collapseSpec_run rest]
          simp
        rw [collapseLoop, if_pos hb, hrest]
        have hspec : collapseSpec (line :: rest) = line :: collapseSpec rest := by
          rw [collapseSpec, if_pos hb]
        by_cases ht : temp = [] <;>
          simp [List.takeWhile_cons, List.dropWhile_cons, hn, hspec, ht]
      · have hn : nonblank line = true := by simp [nonblank, hb]
        rw [collapseLoop, if_neg hb]
        rw [ih (temp ++ [pyStrip line])]
        have hne : temp ++ [pyStrip line] ≠ [] := by simp
        simp only [List.takeWhile_cons, List.dropWhile_cons, hn, if_true]
        rw [if_neg (by simp), if_neg (by simp)]
        simp

/-- The collapse loop started with an empty pending line equals the run-based
collapse. -/
theorem collapseLoop_spec (ls : List (List Char)) :
    collapseLoop ls [] = collapseSpec ls := by
  rw [collapseLoop_eq ls []]
  conv_rhs => rw [collapseSpec_run ls]
  simp

/-- The packing loop appends the enumerated pieces, each followed by a
separator, to its accumulator. -/
theorem packLoop_eq (ps : List Paragraph) :
    ∀ i acc, packLoop ps i acc
      = acc ++ (((List.enumFrom i ps).map (fun ip => packPiece ip.1 ip.2)).map
          (fun x => x ++ sepChars)).flatten := by
  induction ps with
  | nil =>
      intro i acc
      simp [packLoop]
  | cons p ps ih =>
      intro i acc
      rw [packLoop, ih]
      simp [List.enumFrom_cons]

/-- Concatenating pieces each followed by the separator yields the
separator-intercalation plus one trailing separator. -/
theorem flatten_sep (pieces : List (List Char)) (hne : pieces ≠ []) :
    ((pieces.map (fun x => x ++ sepChars)).flatten)
      = List.intercalate sepChars pieces ++ sepChars := by
  induction pieces with
  | nil => cases hne rfl
  | cons x rest ih =>
      cases rest with
      | nil => simp [List.intercalate]
      | cons y ys =>
          have h2 := ih (by simp)
          simp only [List.map_cons, List.flatten_cons] at h2 ⊢
          rw [h2]
          simp [List.intercalate]

/-- The packed request equals the claim-C8 form: enumerated pieces joined by
the separator, trailing separator removed. -/
theorem packParagraphs_eq (plist : List Paragraph) :
    packParagraphs plist = batcherSpec plist := by
  cases plist with
  | nil => rfl
  | cons p ps =>
      have hne : (List.enumFrom 1 (p :: ps)).map (fun ip => packPiece ip.1 ip.2) ≠ [] := by
        simp [List.enumFrom_cons]
      have h1 : packLoop (p :: ps) 1 []
          = List.intercalate sepChars
              ((List.enumFrom 1 (p :: ps)).map (fun ip => packPiece ip.1 ip.2))
            ++ sepChars := by
        rw [packLoop_eq]
        rw [flatten_sep _ hne]
        rfl
      simp only [packParagraphs, batcherSpec, h1]
      rw [if_pos (List.suffix_append _ _)]
      have hlen : (List.intercalate sepChars
            ((List.enumFrom 1 (p :: ps)).map (fun ip => packPiece ip.1 ip.2))
          ++ sepChars).length - sepChars.length
          = (List.intercalate sepChars
            ((List.enumFrom 1 (p :: ps)).map (fun ip => packPiece ip.1 ip.2))).length := by
        simp
      rw [hlen]
      exact List.take_left _ _

-- Claim theorems (batcher and reconciliation pipeline)

/-- C8: the request built by `translate_list` is, for each paragraph in order,
the sup-free trimmed text prefixed by its parenthesized 1-based position,
joined with the five-newline separator and the trailing separator removed; the
packed string is then normalized by `join_lines`, which collapses each maximal
run of consecutive nonblank lines into a single space-joined line while
preserving blank-line boundaries (the caret-M replacement pass and the no-op
filter of C10 aside). -/
theorem batcher_contract (plist : List Paragraph) (text : List Char) :
    packParagraphs plist = batcherSpec plist ∧
    join_lines text
      = replaceCaretM (List.intercalate ['\n'] (collapseSpec (text.splitOn '\n'))) := by
  refine ⟨packParagraphs_eq plist, ?_⟩
  rw [join_lines_eq_simple]
  simp only [join_lines_simple]
  rw [collapseLoop_spec]

/-- C2: a paragraph-count mismatch is a soft failure.  When no candidate ever
has the expected length, the reconciliation call inside `translate_list`
returns (it is a total function, so it cannot raise) a best-effort candidate --
one of the splitter outputs -- together with the full retry budget of 15
consumed; `translate_list` still returns the normalized best-effort list and
emits a mismatch record carrying the expected and actual counts to the
diagnostic log. -/
theorem mismatch_soft_failure (plist : List Paragraph) (responses : Nat → List Char)
    (h : ∀ k, (translate_and_split_lines (responses k)).length ≠ plist.length) :
    (get_best_result_list plist.length
        (fun k => translate_and_split_lines (responses (k + 1)))
        (translate_and_split_lines (responses 0)) 15).2 = 15 ∧
    (∃ k, (get_best_result_list plist.length
        (fun k => translate_and_split_lines (responses (k + 1)))
        (translate_and_split_lines (responses 0)) 15).1
          = translate_and_split_lines (responses k)) ∧
    (translate_list plist responses).1
        = ((get_best_result_list plist.length
            (fun k => translate_and_split_lines (responses (k + 1)))
            (translate_and_split_lines (responses 0)) 15).1).map stripEnum ∧
    (∃ got, (translate_list plist responses).2.mismatch = some (plist.length, got)
        ∧ got ≠ plist.length) := by
  have h0 := h 0
  have hloop := get_best_result_loop_exhaust plist.length
    (fun k => translate_and_split_lines (responses (k + 1)))
    (fun k => h (k + 1)) 15 0
    (translate_and_split_lines (responses 0)) (translate_and_split_lines (responses 0)) h0
  have hunf : get_best_result_list plist.length
      (fun k => translate_and_split_lines (responses (k + 1)))
      (translate_and_split_lines (responses 0)) 15
      = get_best_result_loop plist.length
        (fun k => translate_and_split_lines (responses (k + 1))) 15 0
        (translate_and_split_lines (responses 0))
        (translate_and_split_lines (responses 0)) := by
    rw [get_best_result_list, if_neg h0]
  obtain ⟨hcount, hbest⟩ := hloop
  have hex : ∃ k, (get_best_result_list plist.length
      (fun k => translate_and_split_lines (responses (k + 1)))
      (translate_and_split_lines (responses 0)) 15).1
        = translate_and_split_lines (responses k) := by
    rw [hunf]
    rcases hbest with hb | ⟨k, hk⟩
    · exact ⟨0, hb⟩
    · exact ⟨k + 1, hk⟩
  refine ⟨by rw [hunf]; simpa using hcount, hex, rfl, ?_⟩
  obtain ⟨k, hk⟩ := hex
  refine ⟨(translate_and_split_lines (responses k)).length, ?_, h k⟩
  show log_translation_mismatch plist.length
      (get_best_result_list plist.length
        (fun k => translate_and_split_lines (responses (k + 1)))
        (translate_and_split_lines (responses 0)) 15).1
      = some (plist.length, (translate_and_split_lines (responses k)).length)
  rw [hk]
  rw [log_translation_mismatch, if_neg (h k)]

/-- Witness for C2: one expected paragraph, every response splitting into two
lines; the reconciliation consumes all 15 retries. -/
theorem mismatch_soft_failure_witness :
    (get_best_result_list samplePlist.length
        (fun k => translate_and_split_lines (constResp (k + 1)))
        (translate_and_split_lines (constResp 0)) 15).2 = 15 :=
  (mismatch_soft_failure samplePlist constResp (fun k => by
    show (translate_and_split_lines ("a\nb".toList)).length ≠ samplePlist.length
    decide)).1

-- Backend error-handling helper lemmas

/-- A successful attempt ends the translateText retry loop at once. -/
theorem translateLoop_succ_ok (get : Nat → Except PyErr (List Char × Option (List Char)))
    (fuel attempt_count : Nat) (t : List Char × Option (List Char))
    (hg : get attempt_count = .ok t) :
    translateLoop get (fuel + 1) attempt_count = .ok (t, attempt_count) := by
  rw [translateLoop, hg]

/-- A failed attempt with budget remaining retries on the next oracle index. -/
theorem translateLoop_succ_err (get : Nat → Except PyErr (List Char × Option (List Char)))
    (fuel attempt_count : Nat) (e : PyErr) (hg : get attempt_count = .error e)
    (hf : fuel ≠ 0) :
    translateLoop get (fuel + 1) attempt_count = translateLoop get fuel (attempt_count + 1) := by
  rw [translateLoop, hg]
  simp [hf]

/-- A failed final attempt re-raises its exception. -/
theorem translateLoop_last_err (get : Nat → Except PyErr (List Char × Option (List Char)))
    (attempt_count : Nat) (e : PyErr) (hg : get attempt_count = .error e) :
    translateLoop get (0 + 1) attempt_count = .error e := by
  rw [translateLoop, hg]
  simp

-- Claim theorems (backend error handling)

/-- C7: when the backend response carries finish reason `"length"`,
`get_translation` appends the offending input text to the oversize-text log
and returns the partial completion text for that attempt; since no exception
is raised, `translateText` breaks out of its attempt loop at once -- zero retries
for the truncation alone. -/
theorem truncation_soft (text x : List Char) (rest : List Choice)
    (oracle : Nat → Except Unit Completion)
    (h : oracle 0 = .ok ⟨some (⟨"length".toList, x⟩ :: rest)⟩) :
    get_translation text (oracle 0) = .ok (x, some text) ∧
    translateText text oracle = .ok ((x, some text), 0) := by
  have h1 : get_translation text (oracle 0) = .ok (x, some text) := by
    rw [h]
    simp [get_translation]
  exact ⟨h1, translateLoop_succ_ok _ 2 0 (x, some text) h1⟩

/-- Witness for C7: a concrete truncated response with content `"x"` on input
`"t"`. -/
theorem truncation_soft_witness :
    get_translation ("t".toList) (truncOracle 0)
        = .ok ("x".toList, some ("t".toList)) :=
  (truncation_soft ("t".toList) ("x".toList) [] truncOracle rfl).1

/-- C6 (amended): on a response lacking choices with no truncation indicated,
`get_translation` raises immediately -- no reconciliation retry is attempted
for it -- but the raised error is caught by the transient-failure loop of
`translateText`, which retries the call and re-raises only after all 3 attempts
fail; a persistent malformed response therefore propagates to the caller of
`translateText`. -/
theorem malformed_fatal_after_retries (text : List Char)
    (oracle : Nat → Except Unit Completion)
    (h : ∀ k, oracle k = .ok ⟨none⟩ ∨ oracle k = .ok ⟨some []⟩) :
    (∃ e, get_translation text (oracle 0) = .error e) ∧
    (∃ e, translateText text oracle = .error e) := by
  have hg : ∀ k, ∃ e, get_translation text (oracle k) = .error e := by
    intro k
    rcases h k with hk | hk <;> rw [hk] <;> exact ⟨_, rfl⟩
  obtain ⟨e0, he0⟩ := hg 0
  obtain ⟨e1, he1⟩ := hg 1
  obtain ⟨e2, he2⟩ := hg 2
  refine ⟨⟨e0, he0⟩, ⟨e2, ?_⟩⟩
  show translateLoop (fun k => get_translation text (oracle k)) 3 0 = .error e2
  rw [translateLoop_succ_err _ 2 0 e0 he0 (by omega)]
  rw [translateLoop_succ_err _ 1 1 e1 he1 (by omega)]
  exact translateLoop_last_err _ 2 e2 he2

/-- Witness for C6 (amended): the persistently malformed oracle makes
`translateText` fail. -/
theorem malformed_fatal_after_retries_witness :
    ∃ e, translateText [] badOracle = .error e :=
  (malformed_fatal_after_retries [] badOracle (fun k => Or.inl rfl)).2

/-- Counterexample for C6 as stated: with an oracle whose first response is
malformed (no choices, no truncation) and whose second is well-formed,
`get_translation` raises immediately on attempt 0, yet the error does not
propagate to the caller: `translateText` retries and returns the second attempt's
text after exactly one retry. -/
theorem malformed_retried_cex :
    get_translation [] (cexOracle 0) = .error .keyError ∧
    translateText [] cexOracle = .ok (("hello".toList, none), 1) :=
  ⟨rfl, rfl⟩
